import Mathlib

/-!
Verification of the libfprint asynchronous driver runtime excerpt:
the SSM (sequential state machine) runtime of `src/libfprint/drv.c`,
the AES2550 swipe-image reassembly engine of
`src/libfprint/drivers/aes2550.c`, and the AES1660 frame-stream decoder of
`src/libfprint/drivers/aes1660.c`, shallowly embedded in Lean.

Machine integers of the C source are modelled as `Nat` (all the arithmetic
proved about stays far below `2 ^ 32`, so no wraparound is dropped);
`int` error codes are modelled as `Int`; fatal `BUG_ON` assertions are
modelled as `Except Unit` failures.
-/

namespace LibFprint

/-! ## Reassembly engine (aes2550.c) -/

/-- Source `FRAME_WIDTH` of aes2550.c. -/
def FRAME_WIDTH : Nat := 192

/-- Source `FRAME_HEIGHT` of aes2550.c. -/
def FRAME_HEIGHT : Nat := 8

/-- Source `FRAME_SIZE = FRAME_WIDTH * FRAME_HEIGHT` of aes2550.c. -/
def FRAME_SIZE : Nat := FRAME_WIDTH * FRAME_HEIGHT

/-- Source `MAX_FRAMES` of aes2550.c: "maximum number of frames to read during a
scan". -/
def MAX_FRAMES : Nat := 150

/-- Source `STRIP_SIZE = 0x31e + 3` of aes2550.c. -/
def STRIP_SIZE : Nat := 0x31e + 3

/-- The branchless absolute difference of `find_overlap`:
`a > b ? a - b : b - a`. -/
def absdiff (a b : Nat) : Nat := if a > b then a - b else b - a

/-- The inner loop of `find_overlap` at candidate non-overlap `dy`: the sum
of per-pixel absolute differences between `first_frame + FRAME_WIDTH*dy`
and `second_frame` over `i < FRAME_WIDTH * (FRAME_HEIGHT - dy)`, multiplied
by 15 and divided by that pixel count (`error *= 15; error /= i`). -/
def frame_error (first_frame second_frame : List Nat) (dy : Nat) : Nat :=
  (List.zipWith absdiff (first_frame.drop (FRAME_WIDTH * dy))
      (second_frame.take (FRAME_WIDTH * (FRAME_HEIGHT - dy)))).sum
    * 15 / (FRAME_WIDTH * (FRAME_HEIGHT - dy))

/-- The `for (dy = 0; dy < FRAME_HEIGHT; dy++)` loop of `find_overlap`,
recursing on the number of remaining candidates: keeps the first `dy`
whose error is strictly below the best error so far. -/
def find_overlap_loop (e : Nat → Nat) : Nat → Nat → Nat → Nat → Nat × Nat
  | 0, _, best, berr => (best, berr)
  | k + 1, dy, best, berr =>
    if e dy < berr then find_overlap_loop e k (dy + 1) dy (e dy)
    else find_overlap_loop e k (dy + 1) best berr

/-- Source `find_overlap` of aes2550.c: returns
`(not_overlapped_height, *min_error)`, starting from
`not_overlapped_height = 0` and `*min_error = 255 * FRAME_SIZE`. -/
def find_overlap (first_frame second_frame : List Nat) : Nat × Nat :=
  find_overlap_loop (frame_error first_frame second_frame)
    FRAME_HEIGHT 0 0 (255 * FRAME_SIZE)

/-- Modelled from the spec: `aes_assemble_image` lives in aeslib.c, which is
not part of this excerpt (only its declaration in aeslib.h is). Per the
spec, each 4-bit nibble of the packed strip is expanded "through a monotone
lookup table that stretches contrast, producing one byte per pixel"; the
table is modelled as multiplication by 17, stretching 0..15 onto 0..255,
with the low nibble of each byte emitted first. -/
def aes_assemble_image (input : List Nat) : List Nat :=
  input.flatMap (fun b => [17 * (b % 16), 17 * (b / 16)])

/-- The overlap-detection loop of `assemble` (aes2550.c): one iteration per
remaining frame. `aPos` is the offset of the `assembled` pointer into the
buffer, `oPos` the offset of `output`; each iteration advances `output` by
`FRAME_SIZE`, runs `find_overlap` on the two frames at those offsets,
accumulates `*errors_sum` and `image_height`, advances `assembled` by
`FRAME_WIDTH * not_overlapped` and does
`memcpy(assembled, output, FRAME_SIZE)` (a forward copy whose destination
lies strictly below its source). Returns
`(image_height, errors_sum, buffer)`. -/
def assemble_loop : Nat → Nat → Nat → List Nat → Nat → Nat → Nat × Nat × List Nat
  | 0, _, _, buf, h, es => (h, es, buf)
  | k + 1, aPos, oPos, buf, h, es =>
    let oPos2 := oPos + FRAME_SIZE
    let first := (buf.drop aPos).take FRAME_SIZE
    let second := (buf.drop oPos2).take FRAME_SIZE
    let r := find_overlap first second
    let aPos2 := aPos + FRAME_WIDTH * r.1
    let buf2 := buf.take aPos2 ++ second ++ buf.drop (aPos2 + FRAME_SIZE)
    assemble_loop k aPos2 oPos2 buf2 (h + r.1) (es + r.2)

/-- Source `assemble` of aes2550.c: unpacks every strip into the output buffer
(back-to-back forward, or back-to-back reverse when `reverse` is set: the
first list entry is placed at the last slot), then removes the overlap
between consecutive frames. Returns `(image_height, *errors_sum, buffer)`
with `image_height` starting at `FRAME_HEIGHT`. -/
def assemble (strips : List (List Nat)) (reverse : Bool) : Nat × Nat × List Nat :=
  let frames := strips.map aes_assemble_image
  let buffer := if reverse then frames.reverse.flatten else frames.flatten
  assemble_loop (strips.length - 1) 0 0 buffer FRAME_HEIGHT 0

/-- The emitted `fp_img` of `fpi_imgdev_image_captured`, with its three
flag bits (`FP_IMG_COLORS_INVERTED`, `FP_IMG_H_FLIPPED`,
`FP_IMG_V_FLIPPED`). -/
structure FpImg where
  colors_inverted : Bool
  h_flipped : Bool
  v_flipped : Bool
  height : Nat
  data : List Nat
deriving DecidableEq

/-- Source `assemble_and_submit_image` of aes2550.c, as a function from the
session strip list (in accumulation order) to the submitted image:
`BUG_ON(strips_len == 0)` is modelled by returning `none` on the empty
list. The list is reversed, assembled forward (`errors_sum`) then in
reverse (`r_errors_sum`); if `r_errors_sum > errors_sum` the forward
assembly is rebuilt and `FP_IMG_V_FLIPPED | FP_IMG_H_FLIPPED` are added
to the flags, otherwise the reverse assembly is kept; the buffer is
resized to `img->height * FRAME_WIDTH` bytes. -/
def assemble_and_submit_image (strips : List (List Nat)) : Option FpImg :=
  if strips = [] then none
  else
    let strips2 := strips.reverse
    let f := assemble strips2 false
    let r := assemble strips2 true
    if r.2.1 > f.2.1 then
      let f2 := assemble strips2 false
      some { colors_inverted := true, h_flipped := true, v_flipped := true,
             height := f2.1, data := f2.2.2.take (f2.1 * FRAME_WIDTH) }
    else
      some { colors_inverted := true, h_flipped := false, v_flipped := false,
             height := r.1, data := r.2.2.take (r.1 * FRAME_WIDTH) }

/-! ### Example inputs for the reassembly engine -/

/-- One constant packed row of a 192x8 strip: 96 bytes, both nibbles `n`,
so every unpacked pixel of the row is `17 * n`. -/
def rowBytes (n : Nat) : List Nat := List.replicate 96 (17 * n)

/-- A packed strip whose unpacked rows are `[7,7,7,7,7,0,1,2] * 17`. -/
def stripA : List Nat := (([7, 7, 7, 7, 7, 0, 1, 2] : List Nat).map rowBytes).flatten

/-- A packed strip whose unpacked rows are `[0,1,2,3,3,3,3,3] * 17`: the
top three rows of `stripB` equal the bottom three rows of `stripA`, so the
forward assembly `[stripA, stripB]` overlaps perfectly at `dy = 5` while
the reverse assembly matches nowhere. -/
def stripB : List Nat := (([0, 1, 2, 3, 3, 3, 3, 3] : List Nat).map rowBytes).flatten

/-- A session strip list (in accumulation order, so reversed by
`assemble_and_submit_image`) whose forward assembly has errors_sum 0 and
whose reverse assembly has errors_sum 1020. -/
def c1ex : List (List Nat) := [stripB, stripA]

/-- An all-zero packed strip. -/
def stripZ : List Nat := List.replicate 768 0

/-! ## SSM runtime (drv.c)

The mutable `struct fpi_ssm` is modelled as a record of its scalar fields;
the `handler`, `callback`, `parentsm` and `childsm` pointers are modelled
by whether they are set (`has_callback`, `has_child`, `has_parent`), since
the runtime only ever tests them for null.  Every runtime operation is a
function from the machine to `Except Unit (Fssm × List SsmAction)`: the
new machine plus the events it pushes onto the worker queue
(`FPI_EVENT_SSM_CALL_HANDLER` at the current state, or
`FPI_EVENT_SSM_CALLBACK`); a `BUG_ON` whose condition holds is the
`Except.error ()` outcome. -/

/-- The scalar state of a `struct fpi_ssm`. -/
structure Fssm where
  nr_states : Nat
  cur_state : Nat
  error : Int
  completed : Bool
  cancelling : Bool
  idle : Bool
  has_callback : Bool
  has_child : Bool
  has_parent : Bool
deriving DecidableEq

/-- An event pushed by the SSM runtime onto the worker queue: a handler
invocation at the machine's current state (`FPI_EVENT_SSM_CALL_HANDLER`),
the completion callback (`FPI_EVENT_SSM_CALLBACK`), or — flattening the
`childsm` pointer chase of `fpi_ssm_async_abort` — the recursive abort
forwarded to the attached child. -/
inductive SsmAction where
  | invokeHandler (state : Nat)
  | invokeCallback
  | forwardAbortToChild (error : Int)
deriving DecidableEq

/-- Source `fpi_ssm_new` of drv.c: `BUG_ON(nr_states < 1)`, then a zeroed machine
with `completed = TRUE`. -/
def fpi_ssm_new (nr_states : Nat) : Except Unit Fssm :=
  if nr_states < 1 then .error ()
  else .ok { nr_states := nr_states, cur_state := 0, error := 0,
             completed := true, cancelling := false, idle := false,
             has_callback := false, has_child := false, has_parent := false }

/-- Source `fpi_ssm_mark_completed` of drv.c: `BUG_ON(machine->childsm)`,
`BUG_ON(machine->completed)`, clears `idle`, sets `completed`, and pushes
the completion callback if one is set. -/
def fpi_ssm_mark_completed (machine : Fssm) : Except Unit (Fssm × List SsmAction) :=
  if machine.has_child then .error ()
  else if machine.completed then .error ()
  else
    let m := { machine with idle := false, completed := true }
    .ok (m, if m.has_callback then [.invokeCallback] else [])

/-- Source `fpi_ssm_mark_aborted` of drv.c: `BUG_ON(machine->childsm)`,
`BUG_ON(error == 0)`, stores the error and behaves as
`fpi_ssm_mark_completed`. -/
def fpi_ssm_mark_aborted (machine : Fssm) (error : Int) : Except Unit (Fssm × List SsmAction) :=
  if machine.has_child then .error ()
  else if error = 0 then .error ()
  else fpi_ssm_mark_completed { machine with error := error }

/-- Source `__ssm_call_handler` of drv.c: clears `idle`; if `cancelling` is set,
completes the machine instead of running it; otherwise pushes
`FPI_EVENT_SSM_CALL_HANDLER` (the handler invocation at `cur_state`). -/
def ssm_call_handler (machine : Fssm) : Except Unit (Fssm × List SsmAction) :=
  let m := { machine with idle := false }
  if m.cancelling then fpi_ssm_mark_completed m
  else .ok (m, [.invokeHandler m.cur_state])

/-- Source `fpi_ssm_start` of drv.c: `BUG_ON(!ssm->completed)`; stores the
callback, sets `cur_state = 0`, `completed = FALSE`, `error = 0` and
enters `__ssm_call_handler`. -/
def fpi_ssm_start (ssm : Fssm) : Except Unit (Fssm × List SsmAction) :=
  if !ssm.completed then .error ()
  else ssm_call_handler
    { ssm with has_callback := true, cur_state := 0, completed := false, error := 0 }

/-- Source `fpi_ssm_next_state` of drv.c: `BUG_ON(machine->childsm)`,
`BUG_ON(machine->completed)`; increments `cur_state`; completes when it
equals `nr_states`, otherwise re-enters `__ssm_call_handler`. -/
def fpi_ssm_next_state (machine : Fssm) : Except Unit (Fssm × List SsmAction) :=
  if machine.has_child then .error ()
  else if machine.completed then .error ()
  else
    let m := { machine with cur_state := machine.cur_state + 1 }
    if m.cur_state = m.nr_states then fpi_ssm_mark_completed m
    else ssm_call_handler m

/-- Source `fpi_ssm_jump_to_state` of drv.c: `BUG_ON(machine->childsm)`,
`BUG_ON(machine->completed)`, `BUG_ON(state >= machine->nr_states)`; sets
`cur_state` and re-enters `__ssm_call_handler`. -/
def fpi_ssm_jump_to_state (machine : Fssm) (state : Nat) : Except Unit (Fssm × List SsmAction) :=
  if machine.has_child then .error ()
  else if machine.completed then .error ()
  else if state ≥ machine.nr_states then .error ()
  else ssm_call_handler { machine with cur_state := state }

/-- Source `fpi_ssm_idle` of drv.c: sets the `idle` flag. -/
def fpi_ssm_idle (ssm : Fssm) : Fssm := { ssm with idle := true }

/-- Source `fpi_ssm_async_abort` of drv.c: `BUG_ON(ssm->completed)`; sets
`cancelling` and `error`; if a child is attached the abort recurses into
it (modelled as the `forwardAbortToChild` action); otherwise, if the
machine is idle, it is completed on the spot. -/
def fpi_ssm_async_abort (ssm : Fssm) (error : Int) : Except Unit (Fssm × List SsmAction) :=
  if ssm.completed then .error ()
  else
    let m := { ssm with cancelling := true, error := error }
    if m.has_child then .ok (m, [.forwardAbortToChild error])
    else if m.idle then fpi_ssm_mark_completed m
    else .ok (m, [])

/-- Source `fpi_ssm_free(child)` of drv.c, as seen by the parent: when the freed
machine has a parent, the parent's `childsm` pointer is cleared. -/
def fpi_ssm_free_child (child parent : Fssm) : Fssm :=
  if child.has_parent then { parent with has_child := false } else parent

/-- Source `__subsm_complete` of drv.c, the completion callback installed on every
child machine: `BUG_ON(!parent)`; clears the parent's `childsm` pointer,
then aborts the parent with the child's error (if nonzero) or advances it
to the next state, and finally frees the child.  Returns the parent's new
state and the events pushed on the parent's behalf. -/
def subsm_complete (ssm parent : Fssm) : Except Unit (Fssm × List SsmAction) :=
  if !ssm.has_parent then .error ()
  else
    let parent1 := { parent with has_child := false }
    (if ssm.error ≠ 0 then fpi_ssm_mark_aborted parent1 ssm.error
     else fpi_ssm_next_state parent1).map
      (fun r => (fpi_ssm_free_child ssm r.1, r.2))

/-- Source `fpi_ssm_start_subsm` of drv.c: `BUG_ON(parent->childsm)`; links
parent and child both ways and starts the child with `__subsm_complete`
as its completion callback.  Returns `(parent, child, events)`. -/
def fpi_ssm_start_subsm (parent child : Fssm) : Except Unit (Fssm × Fssm × List SsmAction) :=
  if parent.has_child then .error ()
  else
    (fpi_ssm_start { child with has_parent := true }).map
      (fun r => ({ parent with has_child := true }, r.1, r.2))

/-! ## Frame stream decoder (aes1660.c) -/

/-- The reassembly state of `struct aes1660_dev`: the filled prefix of
`buffer` (so `buffer_size = buf.length`) and `buffer_max`. -/
structure DecState where
  buf : List Nat
  max : Nat
deriving DecidableEq

/-- The decoder state established by `capture_run_state` at
`CAPTURE_SEND_CAPTURE_CMD`: `buffer_size = 0`, `buffer_max = 3`. -/
def dec_init : DecState := { buf := [], max := 3 }

/-- One iteration of the `do { ... } while (actual_len)` loop of
`capture_read_stripe_data_cb` (aes1660.c): copies
`min(buffer_max - buffer_size, actual_len)` bytes from the transfer data
into the buffer; if the buffer is now full, either (header complete,
`buffer_max == 3`) grows `buffer_max` to
`buffer[1] + (buffer[2] << 8) + 3` and continues, or (frame complete)
hands the buffer to `process_stripe_data` and resets
`{buffer_max := 3, buffer_size := 0}`.  Returns the new state, the
remaining transfer bytes, and the yielded frame, if any. -/
def capture_read_stripe_step (st : DecState) (data : List Nat) :
    DecState × List Nat × Option (List Nat) :=
  let copied := min (st.max - st.buf.length) data.length
  let buf2 := st.buf ++ data.take copied
  let data2 := data.drop copied
  if buf2.length = st.max then
    if st.max = 3 then
      ({ buf := buf2, max := buf2.getD 1 0 + buf2.getD 2 0 * 256 + 3 }, data2, none)
    else
      ({ buf := [], max := 3 }, data2, some buf2)
  else
    ({ st with buf := buf2 }, data2, none)

/-- The whole `do { ... } while (actual_len)` loop of
`capture_read_stripe_data_cb`, run to completion with explicit fuel (the C
loop does not terminate on every input — see the zero-length-frame
theorems below): executes the body at least once and repeats while
transfer bytes remain, collecting the yielded frames in order. -/
def capture_read_stripe_run :
    Nat → DecState → List Nat → Option (DecState × List (List Nat))
  | 0, _, _ => none
  | fuel + 1, st, data =>
    let r := capture_read_stripe_step st data
    if r.2.1 = [] then some (r.1, r.2.2.toList)
    else
      (capture_read_stripe_run fuel r.1 r.2.1).map
        (fun s => (s.1, r.2.2.toList ++ s.2))

/-- The decoder invariant: the header is always at least 3 bytes expected,
and the fill never exceeds the expected length. -/
def DecInv (st : DecState) : Prop := 3 ≤ st.max ∧ st.buf.length ≤ st.max

instance (st : DecState) : Decidable (DecInv st) := by
  unfold DecInv; infer_instance

/-- The total payload carried by a list of decoded frames: each frame is a
3-byte header plus its payload. -/
def payloadSum (frames : List (List Nat)) : Nat :=
  (frames.map (fun f => f.length - 3)).sum

/-- The decoder state reached after the 3-byte header `{magic, 0x00, 0x00}`
of a frame with declared payload length zero has been consumed: the
header-complete branch sets `buffer_max` to `0 + 0·256 + 3 = 3`, so the
buffer is still full and `buffer_max` is still 3. -/
def dec_zero_len_state : DecState := { buf := [0x40, 0, 0], max := 3 }

/-! ## Frame classification (process_strip_data / process_stripe_data) -/

/-- The observable outcome of the per-message processing functions: the C
return value, the strip prepended to the session list (if any), whether
`fpi_ssm_next_state` was called on the capture SSM, whether the terminal
frame was flagged, and the error passed to `fpi_ssm_mark_aborted` by the
function itself (if any). -/
structure ProcResult where
  ret : Int
  strip : Option (List Nat)
  next_state_called : Bool
  last_found : Bool
  aborted : Option Int
deriving DecidableEq

/-- Source `process_strip_data` of aes2550.c: dispatches on `data[0]`; `0xe0` is
strip data (returning 0 if less than `STRIP_SIZE` bytes are available,
otherwise copying `FRAME_WIDTH*FRAME_HEIGHT/2` bytes from offset 33 and
returning `len + 3` with `len = data[1]*256 + data[2]`); `0xdb` is the
heartbeat: the last frame is flagged and the SSM advanced; any other
magic returns `-EINVAL` (= -22). -/
def process_strip_data (data : List Nat) (buf_size : Nat) : ProcResult :=
  if data.getD 0 0 = 0xe0 then
    if buf_size < STRIP_SIZE then
      { ret := 0, strip := none, next_state_called := false,
        last_found := false, aborted := none }
    else
      { ret := Int.ofNat (data.getD 1 0 * 256 + data.getD 2 0 + 3),
        strip := some ((data.drop 33).take (FRAME_WIDTH * FRAME_HEIGHT / 2)),
        next_state_called := false, last_found := false, aborted := none }
  else if data.getD 0 0 = 0xdb then
    { ret := 0, strip := none, next_state_called := true,
      last_found := true, aborted := none }
  else
    { ret := -22, strip := none, next_state_called := false,
      last_found := false, aborted := none }

/-- The reaction of `capture_read_data_cb` (aes2550.c) to the value
returned by `process_strip_data`: a negative return is passed to
`fpi_ssm_mark_aborted(ssm, processed)`. -/
def capture_read_data_react (ssm : Fssm) (processed : Int) :
    Except Unit (Fssm × List SsmAction) :=
  if processed < 0 then fpi_ssm_mark_aborted ssm processed else .ok (ssm, [])

/-- Source `process_stripe_data` of aes1660.c: if `data[3] == 0x0d` the frame is a
strip (512 bytes copied from offset 43, prepended to the strip list) and
the return value is `data[4] & 0x01` (the "finger removed" framing bit);
any other frame type returns 0 with no other effect — no abort, no strip.
(The `!stripdata` allocation-failure branch is dead under glib's
`g_malloc`, which never returns null.) -/
def process_stripe_data (data : List Nat) : ProcResult :=
  if data.getD 3 0 = 0x0d then
    { ret := Int.ofNat ((data.getD 4 0) % 2),
      strip := some ((data.drop 43).take (128 * 8 / 2)),
      next_state_called := false, last_found := false, aborted := none }
  else
    { ret := 0, strip := none, next_state_called := false,
      last_found := false, aborted := none }

/-! ## Session strip-list accounting (aes2550.c / aes1660.c) -/

/-- The strip-list slice of a driver session (`struct aes2550_dev` /
`struct aes1660_dev`): the accumulated strip list, its separate length
counter, and the deactivating flag. -/
structure StripSession where
  strips : List (List Nat)
  strips_len : Nat
  deactivating : Bool
deriving DecidableEq

/-- The strip-accumulation effect shared by `process_strip_data`
(aes2550.c) and `process_stripe_data` (aes1660.c):
`g_slist_prepend(aesdev->strips, stripdata); aesdev->strips_len++` —
unconditionally, with no check against any frame cap. -/
def session_add_strip (s : StripSession) (stripdata : List Nat) : StripSession :=
  { s with strips := stripdata :: s.strips, strips_len := s.strips_len + 1 }

/-- The session effect of `assemble_and_submit_image` (aes2550.c): the
strip list is reversed, the image assembled and emitted, every strip freed
and the list head set to NULL — but `strips_len` is left untouched. -/
def assemble_and_submit_image_session (s : StripSession) :
    StripSession × Option FpImg :=
  ({ s with strips := [] }, assemble_and_submit_image s.strips)

/-- The session effect of the successful branch of
`capture_set_idle_cmd_cb` (aes1660.c): the strip list is reversed,
assembled, freed and nulled, and `strips_len` is reset to 0. -/
def capture_set_idle_session (s : StripSession) : StripSession :=
  { s with strips := [], strips_len := 0 }

/-- Source `complete_deactivation` (identical in aes2550.c and aes1660.c): clears
the deactivating flag, frees the strip list and resets both the list head
and `strips_len`. -/
def complete_deactivation (s : StripSession) : StripSession :=
  { s with deactivating := false, strips := [], strips_len := 0 }

/-- The strip list and its counter agree (the §3 session invariant). -/
def strips_agree (s : StripSession) : Prop := s.strips.length = s.strips_len

instance (s : StripSession) : Decidable (strips_agree s) := by
  unfold strips_agree; infer_instance

/-! ### Decidable equality for runtime outcomes, and example machines -/

/-- Decidable equality on `Except`, for evaluating runtime outcomes at
concrete machines. -/
instance instDecEqExcept {e a : Type} [DecidableEq e] [DecidableEq a] : DecidableEq (Except e a)
  | .error x, .error y =>
    if h : x = y then .isTrue (by rw [h]) else .isFalse (by simp [h])
  | .error _, .ok _ => .isFalse (by simp)
  | .ok _, .error _ => .isFalse (by simp)
  | .ok x, .ok y =>
    if h : x = y then .isTrue (by rw [h]) else .isFalse (by simp [h])

/-- A completed machine that still carries the `cancelling` flag of a
previous run aborted by `fpi_ssm_async_abort` while idle (the error code
is the `-EIO` the abort stored); restarting it exercises the `cancelling`
check of `__ssm_call_handler`. -/
def c3cex_ssm : Fssm :=
  { nr_states := 3, cur_state := 1, error := -5, completed := true,
    cancelling := true, idle := false, has_callback := true,
    has_child := false, has_parent := false }

/-- A freshly created two-state machine (the post-`fpi_ssm_new` state). -/
def c3m0 : Fssm :=
  { nr_states := 2, cur_state := 0, error := 0, completed := true,
    cancelling := false, idle := false, has_callback := false,
    has_child := false, has_parent := false }

/-- A running three-state machine, neither idle nor cancelling. -/
def c4m : Fssm :=
  { nr_states := 3, cur_state := 1, error := 0, completed := false,
    cancelling := false, idle := false, has_callback := true,
    has_child := false, has_parent := false }

/-- A child machine that has just completed successfully. -/
def c5child : Fssm :=
  { nr_states := 1, cur_state := 1, error := 0, completed := true,
    cancelling := false, idle := false, has_callback := true,
    has_child := false, has_parent := true }

/-- A running parent machine with its child attached. -/
def c5parent : Fssm :=
  { nr_states := 4, cur_state := 1, error := 0, completed := false,
    cancelling := false, idle := false, has_callback := true,
    has_child := true, has_parent := false }

/-- The transfer bytes of the spec's decoder-reframing scenario: a strip
frame with 4 payload bytes followed by a heartbeat frame with 1 payload
byte. -/
def c6data : List Nat := [0x49, 4, 0, 10, 11, 12, 13, 0xdb, 1, 0, 0xff]

/-- The two frames the decoder yields from `c6data`. -/
def c6frames : List (List Nat) := [[0x49, 4, 0, 10, 11, 12, 13], [0xdb, 1, 0, 0xff]]

/-- A decoded aes1660 frame whose type byte `data[3]` is `0x42` — neither
a strip (`0x0d`) nor anything else the driver recognises. -/
def c7frame : List Nat := [0xdb, 1, 0, 0x42, 0]

/-- An aes2550 session that has captured one strip. -/
def c8session : StripSession :=
  { strips := [stripZ], strips_len := 1, deactivating := false }

/-! ## Theorems

### C2 — `find_overlap` computes the tie-to-smaller argmin of the
normalised error, and the result is always in `[0, FRAME_HEIGHT)` -/

/-- The `find_overlap` minimisation loop is a first-strict-improvement
argmin scan: its result error is a lower bound of `e` on the scanned
range and of the seed `berr`; and either the seed pair survives, or the
result is the least index of the range attaining the minimum. -/
theorem find_overlap_loop_spec (e : Nat → Nat) :
    ∀ k dy best berr,
      (find_overlap_loop e k dy best berr).2 ≤ berr ∧
      (∀ d, dy ≤ d → d < dy + k → (find_overlap_loop e k dy best berr).2 ≤ e d) ∧
      ((find_overlap_loop e k dy best berr) = (best, berr) ∨
        (dy ≤ (find_overlap_loop e k dy best berr).1 ∧
          (find_overlap_loop e k dy best berr).1 < dy + k ∧
          (find_overlap_loop e k dy best berr).2 = e (find_overlap_loop e k dy best berr).1 ∧
          (find_overlap_loop e k dy best berr).2 < berr ∧
          ∀ d, dy ≤ d → d < (find_overlap_loop e k dy best berr).1 →
            (find_overlap_loop e k dy best berr).2 < e d)) := by
  intro k
  induction k with
  | zero =>
    intro dy best berr
    exact ⟨le_refl _, fun d h1 h2 => absurd h2 (by omega), Or.inl rfl⟩
  | succ k ih =>
    intro dy best berr
    by_cases h : e dy < berr
    · have heq : find_overlap_loop e (k + 1) dy best berr
          = find_overlap_loop e k (dy + 1) dy (e dy) := by
        simp [find_overlap_loop, h]
      obtain ⟨s1, s2, s3⟩ := ih (dy + 1) dy (e dy)
      rw [heq]
      refine ⟨le_trans s1 (le_of_lt h), ?_, ?_⟩
      · intro d h1 h2
        rcases eq_or_lt_of_le h1 with rfl | h1x
        · exact s1
        · exact s2 d h1x (by omega)
      · rcases s3 with hA | ⟨b1, b2, b3, b4, b5⟩
        · right
          rw [hA]
          exact ⟨le_refl _, by omega, rfl, h, fun d h1 h2 => absurd h2 (by omega)⟩
        · right
          refine ⟨by omega, by omega, b3, lt_trans b4 h, ?_⟩
          intro d h1 h2
          rcases eq_or_lt_of_le h1 with rfl | h1x
          · exact b4
          · exact b5 d h1x h2
    · have heq : find_overlap_loop e (k + 1) dy best berr
          = find_overlap_loop e k (dy + 1) best berr := by
        simp [find_overlap_loop, h]
      obtain ⟨s1, s2, s3⟩ := ih (dy + 1) best berr
      rw [heq]
      refine ⟨s1, ?_, ?_⟩
      · intro d h1 h2
        rcases eq_or_lt_of_le h1 with rfl | h1x
        · exact le_trans s1 (not_lt.mp h)
        · exact s2 d h1x (by omega)
      · rcases s3 with hA | ⟨b1, b2, b3, b4, b5⟩
        · exact Or.inl hA
        · right
          refine ⟨by omega, by omega, b3, b4, ?_⟩
          intro d h1 h2
          rcases eq_or_lt_of_le h1 with rfl | h1x
          · exact lt_of_lt_of_le b4 (not_lt.mp h)
          · exact b5 d h1x h2

/-- The branchless absolute difference of two bytes is a byte. -/
theorem absdiff_le_255 (a b : Nat) (ha : a ≤ 255) (hb : b ≤ 255) : absdiff a b ≤ 255 := by
  unfold absdiff
  split <;> omega

/-- The error sum over two byte buffers is at most 255 per compared
pixel. -/
theorem zipWith_absdiff_sum_le :
    ∀ (l1 l2 : List Nat), (∀ x ∈ l1, x ≤ 255) → (∀ x ∈ l2, x ≤ 255) →
      (List.zipWith absdiff l1 l2).sum ≤ 255 * (List.zipWith absdiff l1 l2).length := by
  intro l1
  induction l1 with
  | nil => intro l2 _ _; simp
  | cons a l ih =>
    intro l2 h1 h2
    cases l2 with
    | nil => simp
    | cons b l2x =>
      simp only [List.zipWith, List.sum_cons, List.length_cons]
      have hab : absdiff a b ≤ 255 := absdiff_le_255 a b (h1 a (by simp)) (h2 b (by simp))
      have hrec := ih l2x (fun x hx => h1 x (by simp [hx])) (fun x hx => h2 x (by simp [hx]))
      omega

/-- On byte-valued frames, the normalised error at `dy = 0` is at most
`255 * 15 = 3825`, so it always beats the `255 * FRAME_SIZE` seed of
`find_overlap`. -/
theorem frame_error_zero_lt (ff sf : List Nat)
    (h1 : ∀ x ∈ ff, x ≤ 255) (h2 : ∀ x ∈ sf, x ≤ 255) :
    frame_error ff sf 0 < 255 * FRAME_SIZE := by
  unfold frame_error
  have hlen : (List.zipWith absdiff (ff.drop (FRAME_WIDTH * 0))
      (sf.take (FRAME_WIDTH * (FRAME_HEIGHT - 0)))).length ≤ 1536 := by
    rw [List.length_zipWith]
    have ht : (sf.take (FRAME_WIDTH * (FRAME_HEIGHT - 0))).length ≤ 1536 := by
      rw [List.length_take]
      norm_num [FRAME_WIDTH, FRAME_HEIGHT]
    omega
  have hsum := zipWith_absdiff_sum_le (ff.drop (FRAME_WIDTH * 0))
    (sf.take (FRAME_WIDTH * (FRAME_HEIGHT - 0)))
    (fun x hx => h1 x (List.mem_of_mem_drop hx))
    (fun x hx => h2 x (List.mem_of_mem_take hx))
  have h3 : (List.zipWith absdiff (ff.drop (FRAME_WIDTH * 0))
      (sf.take (FRAME_WIDTH * (FRAME_HEIGHT - 0)))).sum ≤ 391680 := by omega
  calc (List.zipWith absdiff (ff.drop (FRAME_WIDTH * 0))
        (sf.take (FRAME_WIDTH * (FRAME_HEIGHT - 0)))).sum * 15
          / (FRAME_WIDTH * (FRAME_HEIGHT - 0))
      ≤ 391680 * 15 / (FRAME_WIDTH * (FRAME_HEIGHT - 0)) :=
        Nat.div_le_div_right (by omega)
    _ < 255 * FRAME_SIZE := by norm_num [FRAME_WIDTH, FRAME_HEIGHT, FRAME_SIZE]

/-- C2 (confirmed): For every pair of consecutive unpacked
(byte-valued) strips, `find_overlap` returns the `dy` in
`[0, FRAME_HEIGHT)` minimising the error sum over the overlapping
`FRAME_WIDTH * (FRAME_HEIGHT - dy)` pixels of absolute per-pixel
differences, normalised by multiplying by 15 before dividing by the pixel
count; ties between equal errors resolve to the smaller `dy`, and the
returned minimum error is the error at the returned `dy`. -/
theorem find_overlap_minimises (ff sf : List Nat)
    (h1 : ∀ x ∈ ff, x ≤ 255) (h2 : ∀ x ∈ sf, x ≤ 255) :
    (find_overlap ff sf).1 < FRAME_HEIGHT ∧
    (find_overlap ff sf).2 = frame_error ff sf (find_overlap ff sf).1 ∧
    ∀ d, d < FRAME_HEIGHT →
      frame_error ff sf (find_overlap ff sf).1 ≤ frame_error ff sf d ∧
      (frame_error ff sf d = frame_error ff sf (find_overlap ff sf).1 →
        (find_overlap ff sf).1 ≤ d) := by
  have hz := frame_error_zero_lt ff sf h1 h2
  obtain ⟨s1, s2, s3⟩ :=
    find_overlap_loop_spec (frame_error ff sf) FRAME_HEIGHT 0 0 (255 * FRAME_SIZE)
  have hfo : find_overlap ff sf
      = find_overlap_loop (frame_error ff sf) FRAME_HEIGHT 0 0 (255 * FRAME_SIZE) := rfl
  rw [hfo]
  have h0 : (find_overlap_loop (frame_error ff sf) FRAME_HEIGHT 0 0 (255 * FRAME_SIZE)).2
      ≤ frame_error ff sf 0 := s2 0 (le_refl 0) (by decide)
  rcases s3 with hA | ⟨b1, b2, b3, b4, b5⟩
  · rw [hA] at h0
    exact absurd hz (not_lt.mpr h0)
  · refine ⟨by omega, b3, ?_⟩
    intro d hd
    constructor
    · rw [← b3]
      exact s2 d (Nat.zero_le d) (by omega)
    · intro heq
      by_contra hc
      push_neg at hc
      have h5 := b5 d (Nat.zero_le d) hc
      rw [heq, ← b3] at h5
      exact absurd h5 (lt_irrefl _)

/-- Witness for C2, at the empty frame pair (where every per-`dy` error is
zero and the loop keeps `dy = 0`). -/
theorem find_overlap_minimises_witness :
    (find_overlap [] []).1 < FRAME_HEIGHT ∧
    frame_error [] [] (find_overlap [] []).1 ≤ frame_error [] [] 0 :=
  ⟨(find_overlap_minimises [] [] (by simp) (by simp)).1,
   ((find_overlap_minimises [] [] (by simp) (by simp)).2.2 0 (by decide)).1⟩

/-! ### C1 — scan-direction selection and the flip flags -/

/-- C1 (amended): For every non-empty strip list, reassembly runs
overlap detection on both the forward and the reverse assembly and emits
the image corresponding to the direction with the smaller `errors_sum`
(ties go to reverse); but the flip flags are attached to the *forward*
direction: when the forward direction has the strictly smaller
`errors_sum` the emitted image carries both `FP_IMG_H_FLIPPED` and
`FP_IMG_V_FLIPPED` and corresponds to the forward assembly, and when the
reverse direction has the smaller-or-equal `errors_sum` the image carries
neither flip flag and corresponds to the reverse assembly. -/
theorem assemble_and_submit_image_direction (strips : List (List Nat)) (h : strips ≠ []) :
    ((assemble strips.reverse true).2.1 > (assemble strips.reverse false).2.1 →
      assemble_and_submit_image strips = some
        { colors_inverted := true, h_flipped := true, v_flipped := true,
          height := (assemble strips.reverse false).1,
          data := (assemble strips.reverse false).2.2.take
            ((assemble strips.reverse false).1 * FRAME_WIDTH) }) ∧
    ((assemble strips.reverse true).2.1 ≤ (assemble strips.reverse false).2.1 →
      assemble_and_submit_image strips = some
        { colors_inverted := true, h_flipped := false, v_flipped := false,
          height := (assemble strips.reverse true).1,
          data := (assemble strips.reverse true).2.2.take
            ((assemble strips.reverse true).1 * FRAME_WIDTH) }) := by
  constructor
  · intro hgt
    simp only [assemble_and_submit_image, if_neg h, if_pos hgt]
  · intro hle
    simp only [assemble_and_submit_image, if_neg h, if_neg (not_lt.mpr hle)]

set_option maxRecDepth 10000 in
/-- C1 counterexample: On the concrete strip list `c1ex` the forward
assembly has the strictly smaller `errors_sum` (0 against 1020), yet the
emitted image carries both flip flags — refuting the claim that an image
assembled in the direction with the smaller `errors_sum` carries the flip
flags exactly when that direction is the reverse one. -/
theorem scan_direction_flip_cex :
    (assemble c1ex.reverse false).2.1 < (assemble c1ex.reverse true).2.1 ∧
    (assemble_and_submit_image c1ex).map (fun i => (i.h_flipped, i.v_flipped))
      = some (true, true) := by decide

set_option maxRecDepth 10000 in
/-- Witness for C1 at the one-strip list, where both directions have
`errors_sum = 0` and the reverse assembly is emitted without flip
flags. -/
theorem assemble_and_submit_image_direction_witness :
    assemble_and_submit_image [stripZ] = some
      { colors_inverted := true, h_flipped := false, v_flipped := false,
        height := (assemble [stripZ].reverse true).1,
        data := (assemble [stripZ].reverse true).2.2.take
          ((assemble [stripZ].reverse true).1 * FRAME_WIDTH) } :=
  (assemble_and_submit_image_direction [stripZ] (by simp)).2 (by decide)

/-! ### Helper lemmas on the SSM runtime -/

/-- A record update writing `has_child := false` into a machine whose
`has_child` is already false is the identity. -/
theorem fssm_set_has_child_false (p : Fssm) (h : p.has_child = false) :
    { p with has_child := false } = p := by
  cases p
  simp_all

/-- Freeing a child is a no-op on a parent whose `childsm` pointer is
already clear. -/
theorem fpi_ssm_free_child_eq (child X : Fssm) (h : X.has_child = false) :
    fpi_ssm_free_child child X = X := by
  unfold fpi_ssm_free_child
  split
  · exact fssm_set_has_child_false X h
  · rfl

/-- Completion does not touch the `childsm` pointer. -/
theorem fpi_ssm_mark_completed_preserves_has_child (m : Fssm) (r : Fssm × List SsmAction)
    (h : fpi_ssm_mark_completed m = .ok r) : r.1.has_child = m.has_child := by
  unfold fpi_ssm_mark_completed at h
  by_cases h1 : m.has_child = true
  · simp [h1] at h
  · by_cases h2 : m.completed = true
    · simp [h1, h2] at h
    · simp only [h1, h2, if_false, Bool.false_eq_true, ite_false, Except.ok.injEq] at h
      subst h
      simp [h1]

/-- Entering the handler does not touch the `childsm` pointer. -/
theorem ssm_call_handler_preserves_has_child (m : Fssm) (r : Fssm × List SsmAction)
    (h : ssm_call_handler m = .ok r) : r.1.has_child = m.has_child := by
  unfold ssm_call_handler at h
  by_cases h1 : m.cancelling = true
  · simp only [h1, if_true, ite_true] at h
    have hpres := fpi_ssm_mark_completed_preserves_has_child _ _ h
    simpa using hpres
  · simp only [h1, Bool.false_eq_true, if_false, ite_false, Except.ok.injEq] at h
    subst h
    simp

/-- Advancing a machine does not touch the `childsm` pointer. -/
theorem fpi_ssm_next_state_preserves_has_child (m : Fssm) (r : Fssm × List SsmAction)
    (h : fpi_ssm_next_state m = .ok r) : r.1.has_child = m.has_child := by
  unfold fpi_ssm_next_state at h
  by_cases h1 : m.has_child = true
  · simp [h1] at h
  · have hmf : m.has_child = false := by simpa using h1
    by_cases h2 : m.completed = true
    · simp [h1, h2] at h
    · simp only [h1, h2, Bool.false_eq_true, if_false, ite_false] at h
      by_cases h3 : m.cur_state + 1 = m.nr_states
      · simp only [h3, if_true] at h
        have hpres := fpi_ssm_mark_completed_preserves_has_child _ _ h
        simp only [hmf] at hpres ⊢
        simpa using hpres
      · rw [if_neg (by simp [h3])] at h
        have hpres := ssm_call_handler_preserves_has_child _ _ h
        simp only [hmf] at hpres ⊢
        simpa using hpres

/-- Aborting a machine does not touch the `childsm` pointer. -/
theorem fpi_ssm_mark_aborted_preserves_has_child (m : Fssm) (e : Int) (r : Fssm × List SsmAction)
    (h : fpi_ssm_mark_aborted m e = .ok r) : r.1.has_child = m.has_child := by
  unfold fpi_ssm_mark_aborted at h
  by_cases h1 : m.has_child = true
  · simp [h1] at h
  · by_cases h2 : e = 0
    · simp [h1, h2] at h
    · rw [if_neg (by simp [h1]), if_neg h2] at h
      have hpres := fpi_ssm_mark_completed_preserves_has_child _ _ h
      simpa using hpres

/-! ### C3 — start and next_state -/

/-- C3 counterexample: on a completed machine whose `cancelling` flag is
still set from a previous aborted run, `fpi_ssm_start` does *not* invoke
the handler at state 0 — `__ssm_call_handler` observes `cancelling` and
immediately re-completes the machine (pushing only the completion
callback), leaving `completed = true`.  This refutes the claim that start
invokes the handler at state 0 for *every* SSM whose completed flag is
true. -/
theorem ssm_start_cancelling_cex :
    c3cex_ssm.completed = true ∧
    fpi_ssm_start c3cex_ssm = .ok
      ({ c3cex_ssm with cur_state := 0, completed := true, error := 0, idle := false },
        [SsmAction.invokeCallback]) := by decide

/-- C3 (amended): for every SSM whose completed flag is true *and whose
cancelling flag is false*, start sets `completed = false`, `error = 0`,
`cur_state = 0`, stores the callback and invokes the handler at state 0
(with `0 < nr_states`, which `fpi_ssm_new` guarantees); and each
`next_state` call on a running, non-cancelling machine increases
`cur_state` by exactly one, marking successful completion precisely when
`cur_state` reaches `nr_states` and otherwise invoking the handler at the
new state — so whenever the handler is invoked, `0 ≤ cur_state <
nr_states`. -/
theorem ssm_start_next_state_spec (m : Fssm)
    (hc : m.completed = true) (hnc : m.cancelling = false) (hn : 1 ≤ m.nr_states) :
    (fpi_ssm_start m = .ok
      ({ m with has_callback := true, cur_state := 0, completed := false,
                error := 0, idle := false }, [SsmAction.invokeHandler 0]) ∧
      0 < m.nr_states) ∧
    (∀ m2 : Fssm, m2.has_child = false → m2.completed = false → m2.cancelling = false →
      m2.cur_state < m2.nr_states →
      (m2.cur_state + 1 = m2.nr_states →
        fpi_ssm_next_state m2 = .ok
          ({ m2 with cur_state := m2.cur_state + 1, idle := false, completed := true },
            if m2.has_callback then [SsmAction.invokeCallback] else [])) ∧
      (m2.cur_state + 1 < m2.nr_states →
        fpi_ssm_next_state m2 = .ok
          ({ m2 with cur_state := m2.cur_state + 1, idle := false },
            [SsmAction.invokeHandler (m2.cur_state + 1)]))) := by
  constructor
  · constructor
    · unfold fpi_ssm_start ssm_call_handler
      simp [hc, hnc]
    · omega
  · intro m2 h1 h2 h3 h4
    constructor
    · intro he
      unfold fpi_ssm_next_state fpi_ssm_mark_completed
      simp [h1, h2, h3, he]
    · intro hlt
      unfold fpi_ssm_next_state ssm_call_handler
      have hne : ¬(m2.cur_state + 1 = m2.nr_states) := by omega
      simp [h1, h2, h3, hne]

/-- Witness for C3 at a freshly created two-state machine. -/
theorem ssm_start_next_state_spec_witness :
    fpi_ssm_start c3m0 = .ok
      ({ c3m0 with has_callback := true, cur_state := 0, completed := false,
                   error := 0, idle := false }, [SsmAction.invokeHandler 0]) ∧
    0 < c3m0.nr_states :=
  (ssm_start_next_state_spec c3m0 rfl rfl (by decide)).1

/-! ### C4 — asynchronous abort -/

/-- C4 (confirmed): for every running SSM with no child that receives
`fpi_ssm_async_abort(ssm, err)`, its `cancelling` flag becomes true and
`error` is set to `err`; if the SSM is idle at that moment it is
immediately completed; otherwise the machine is only marked, and the next
state-transition call (`fpi_ssm_next_state`, or `fpi_ssm_jump_to_state`
to a legal state) observes `cancelling` and completes the SSM without
invoking the handler; once completed, every further transition call is a
fatal `BUG_ON`, so no state transition past the point of observation is
ever taken. -/
theorem ssm_async_abort_spec (m : Fssm) (err : Int)
    (h1 : m.has_child = false) (h2 : m.completed = false) :
    (m.idle = true →
      fpi_ssm_async_abort m err = .ok
        ({ m with cancelling := true, error := err, idle := false, completed := true },
          if m.has_callback then [SsmAction.invokeCallback] else [])) ∧
    (m.idle = false →
      fpi_ssm_async_abort m err = .ok ({ m with cancelling := true, error := err }, [])) ∧
    (fpi_ssm_next_state { m with cancelling := true, error := err } = .ok
      ({ m with cancelling := true, error := err, cur_state := m.cur_state + 1,
                idle := false, completed := true },
        if m.has_callback then [SsmAction.invokeCallback] else [])) ∧
    (∀ s, s < m.nr_states →
      fpi_ssm_jump_to_state { m with cancelling := true, error := err } s = .ok
        ({ m with cancelling := true, error := err, cur_state := s,
                  idle := false, completed := true },
          if m.has_callback then [SsmAction.invokeCallback] else [])) ∧
    (∀ m2 : Fssm, m2.completed = true →
      fpi_ssm_next_state m2 = .error () ∧
      ∀ s, fpi_ssm_jump_to_state m2 s = .error ()) := by
  refine ⟨?_, ?_, ?_, ?_, ?_⟩
  · intro hidle
    unfold fpi_ssm_async_abort fpi_ssm_mark_completed
    simp [h1, h2, hidle]
  · intro hidle
    unfold fpi_ssm_async_abort
    simp [h1, h2, hidle]
  · unfold fpi_ssm_next_state ssm_call_handler fpi_ssm_mark_completed
    by_cases h3 : m.cur_state + 1 = m.nr_states
    · simp [h1, h2, h3]
    · simp [h1, h2, h3]
  · intro s hs
    unfold fpi_ssm_jump_to_state ssm_call_handler fpi_ssm_mark_completed
    simp [h1, h2, not_le.mpr hs]
  · intro m2 hm2
    constructor
    · unfold fpi_ssm_next_state
      by_cases h3 : m2.has_child = true
      · simp [h3]
      · simp [h3, hm2]
    · intro s
      unfold fpi_ssm_jump_to_state
      by_cases h3 : m2.has_child = true
      · simp [h3]
      · simp [h3, hm2]

/-- Witness for C4 at a concrete running machine aborted with error -5. -/
theorem ssm_async_abort_spec_witness :
    fpi_ssm_async_abort c4m (-5) = .ok ({ c4m with cancelling := true, error := -5 }, []) ∧
    fpi_ssm_next_state { c4m with cancelling := true, error := -5 } = .ok
      ({ c4m with cancelling := true, error := -5, cur_state := c4m.cur_state + 1,
                  idle := false, completed := true },
        if c4m.has_callback then [SsmAction.invokeCallback] else []) :=
  ⟨(ssm_async_abort_spec c4m (-5) rfl rfl).2.1 rfl,
   (ssm_async_abort_spec c4m (-5) rfl rfl).2.2.1⟩

/-! ### C5 — parent/child completion -/

/-- C5 (confirmed): `fpi_ssm_start_subsm` on a parent with no attached
child links the two machines and starts the child; when the child
completes, `__subsm_complete` performs *exactly one* transition on the
parent — `fpi_ssm_next_state` when the child's error is zero, otherwise
`fpi_ssm_mark_aborted(parent, child.error)` — on the parent with its
`childsm` pointer cleared; the child is freed (`fpi_ssm_free`, absorbed
into the result because the parent's pointer is already clear), and any
successful outcome leaves the parent with no attached child. -/
theorem subsm_complete_spec (child parent : Fssm)
    (hp : child.has_parent = true) :
    (child.error = 0 →
      subsm_complete child parent
        = fpi_ssm_next_state { parent with has_child := false }) ∧
    (child.error ≠ 0 →
      subsm_complete child parent
        = fpi_ssm_mark_aborted { parent with has_child := false } child.error) ∧
    (∀ r, subsm_complete child parent = .ok r → r.1.has_child = false) ∧
    (∀ p2 c2 : Fssm, p2.has_child = false → c2.completed = true → c2.cancelling = false →
      fpi_ssm_start_subsm p2 c2 = .ok
        ({ p2 with has_child := true },
         { c2 with has_parent := true, has_callback := true, cur_state := 0,
                   completed := false, error := 0, idle := false },
         [SsmAction.invokeHandler 0])) := by
  have hz : subsm_complete child parent
      = (if child.error ≠ 0 then
          fpi_ssm_mark_aborted { parent with has_child := false } child.error
        else fpi_ssm_next_state { parent with has_child := false }).map
          (fun r => (fpi_ssm_free_child child r.1, r.2)) := by
    unfold subsm_complete
    rw [if_neg (by simp [hp])]
  have hA : child.error = 0 →
      subsm_complete child parent
        = fpi_ssm_next_state { parent with has_child := false } := by
    intro he
    rw [hz, if_neg (by simp [he])]
    cases hr : fpi_ssm_next_state { parent with has_child := false } with
    | error e => rfl
    | ok r =>
      have hchild := fpi_ssm_next_state_preserves_has_child _ _ hr
      simp only [Except.map]
      rw [fpi_ssm_free_child_eq child r.1 (by simpa using hchild)]
  have hB : child.error ≠ 0 →
      subsm_complete child parent
        = fpi_ssm_mark_aborted { parent with has_child := false } child.error := by
    intro he
    rw [hz, if_pos he]
    cases hr : fpi_ssm_mark_aborted { parent with has_child := false } child.error with
    | error e => rfl
    | ok r =>
      have hchild := fpi_ssm_mark_aborted_preserves_has_child _ _ _ hr
      simp only [Except.map]
      rw [fpi_ssm_free_child_eq child r.1 (by simpa using hchild)]
  refine ⟨hA, hB, ?_, ?_⟩
  · intro r h
    by_cases he : child.error = 0
    · rw [hA he] at h
      have hc2 := fpi_ssm_next_state_preserves_has_child _ _ h
      simpa using hc2
    · rw [hB he] at h
      have hc2 := fpi_ssm_mark_aborted_preserves_has_child _ _ _ h
      simpa using hc2
  · intro p2 c2 hpc hcc hnc
    unfold fpi_ssm_start_subsm fpi_ssm_start ssm_call_handler
    simp [hpc, hcc, hnc, Except.map]

/-- Witness for C5 at a concrete successfully-completed child and its
running parent. -/
theorem subsm_complete_spec_witness :
    subsm_complete c5child c5parent
      = fpi_ssm_next_state { c5parent with has_child := false } :=
  (subsm_complete_spec c5child c5parent rfl).1 rfl

/-! ### C6 / C10 — the aes1660 frame stream decoder -/

/-- The total payload of concatenated frame lists adds up. -/
theorem payloadSum_append (a b : List (List Nat)) :
    payloadSum (a ++ b) = payloadSum a + payloadSum b := by
  simp [payloadSum]

/-- Single-iteration behaviour of the decoder loop: it consumes exactly
`min(buffer_max - buffer_size, actual_len)` bytes; a filled 3-byte header
grows `buffer_max` to 3 plus the little-endian length; a filled frame is
yielded and the state reset to `{max := 3, size := 0}`; an unfilled
buffer just accumulates. -/
theorem capture_read_stripe_step_spec (st : DecState) (data : List Nat) :
    ((capture_read_stripe_step st data).2.1
        = data.drop (min (st.max - st.buf.length) data.length)) ∧
    (st.buf.length + min (st.max - st.buf.length) data.length = st.max → st.max = 3 →
      capture_read_stripe_step st data
        = ({ buf := st.buf ++ data.take (min (st.max - st.buf.length) data.length),
             max := (st.buf ++ data.take (min (st.max - st.buf.length) data.length)).getD 1 0
               + (st.buf ++ data.take (min (st.max - st.buf.length) data.length)).getD 2 0 * 256
               + 3 },
           data.drop (min (st.max - st.buf.length) data.length), none)) ∧
    (st.buf.length + min (st.max - st.buf.length) data.length = st.max → st.max ≠ 3 →
      capture_read_stripe_step st data
        = ({ buf := [], max := 3 },
           data.drop (min (st.max - st.buf.length) data.length),
           some (st.buf ++ data.take (min (st.max - st.buf.length) data.length)))) ∧
    (st.buf.length + min (st.max - st.buf.length) data.length ≠ st.max →
      capture_read_stripe_step st data
        = ({ st with buf := st.buf ++ data.take (min (st.max - st.buf.length) data.length) },
           data.drop (min (st.max - st.buf.length) data.length), none)) := by
  have hlen : (st.buf ++ data.take (min (st.max - st.buf.length) data.length)).length
      = st.buf.length + min (st.max - st.buf.length) data.length := by
    simp [List.length_append, List.length_take]
  refine ⟨?_, ?_, ?_, ?_⟩
  · unfold capture_read_stripe_step
    by_cases hfull : st.buf.length + min (st.max - st.buf.length) data.length = st.max
    · rw [if_pos (by rw [hlen]; exact hfull)]
      by_cases h3 : st.max = 3
      · rw [if_pos h3]
      · rw [if_neg h3]
    · rw [if_neg (by rw [hlen]; exact hfull)]
  · intro hfull h3
    unfold capture_read_stripe_step
    rw [if_pos (by rw [hlen]; exact hfull), if_pos h3]
  · intro hfull h3
    unfold capture_read_stripe_step
    rw [if_pos (by rw [hlen]; exact hfull), if_neg h3]
  · intro hfull
    unfold capture_read_stripe_step
    rw [if_neg (by rw [hlen]; exact hfull)]

/-- One decoder iteration preserves the invariant and conserves bytes:
whatever is consumed lands in the buffer or in the yielded frame, and a
yielded frame is at least its 3-byte header. -/
theorem capture_read_stripe_step_conserves (st : DecState) (data : List Nat)
    (hinv : DecInv st) :
    DecInv (capture_read_stripe_step st data).1 ∧
    ((capture_read_stripe_step st data).2.2 = none →
      (capture_read_stripe_step st data).1.buf.length
        + (capture_read_stripe_step st data).2.1.length
        = st.buf.length + data.length) ∧
    (∀ f, (capture_read_stripe_step st data).2.2 = some f →
      f.length ≥ 3 ∧
      f.length + (capture_read_stripe_step st data).1.buf.length
        + (capture_read_stripe_step st data).2.1.length
        = st.buf.length + data.length) := by
  obtain ⟨hi1, hi2⟩ := hinv
  obtain ⟨sp1, sp2, sp3, sp4⟩ := capture_read_stripe_step_spec st data
  by_cases hfull : st.buf.length + min (st.max - st.buf.length) data.length = st.max
  · by_cases h3 : st.max = 3
    · rw [sp2 hfull h3]
      refine ⟨⟨?_, ?_⟩, ?_, ?_⟩
      · dsimp only
        omega
      · dsimp only
        simp only [List.length_append, List.length_take]
        omega
      · intro _
        dsimp only
        simp only [List.length_append, List.length_take, List.length_drop]
        omega
      · intro f hf
        simp at hf
    · rw [sp3 hfull h3]
      refine ⟨⟨?_, ?_⟩, ?_, ?_⟩
      · dsimp only
        omega
      · dsimp only
        simp
      · intro hn
        simp at hn
      · intro f hf
        dsimp only at hf ⊢
        simp only [Option.some.injEq] at hf
        subst hf
        simp only [List.length_append, List.length_take, List.length_drop, List.length_nil]
        omega
  · rw [sp4 hfull]
    refine ⟨⟨?_, ?_⟩, ?_, ?_⟩
    · dsimp only
      omega
    · dsimp only
      simp only [List.length_append, List.length_take]
      omega
    · intro _
      dsimp only
      simp only [List.length_append, List.length_take, List.length_drop]
      omega
    · intro f hf
      simp at hf

/-- Conservation over a whole `do/while` invocation: if the loop finishes,
the invariant still holds and the total payload of the yielded frames
equals the bytes consumed minus 3 per frame and minus the residual bytes
left in the reassembly buffer (which never exceed `buffer_max`). -/
theorem capture_read_stripe_run_spec :
    ∀ (fuel : Nat) (st : DecState) (data : List Nat) (st2 : DecState)
      (frames : List (List Nat)),
      DecInv st →
      capture_read_stripe_run fuel st data = some (st2, frames) →
      DecInv st2 ∧
      payloadSum frames + 3 * frames.length + st2.buf.length
        = st.buf.length + data.length ∧
      ∀ f ∈ frames, 3 ≤ f.length := by
  intro fuel
  induction fuel with
  | zero =>
    intro st data st2 frames _ h
    simp [capture_read_stripe_run] at h
  | succ fuel ih =>
    intro st data st2 frames hinv h
    obtain ⟨c1, c2, c3⟩ := capture_read_stripe_step_conserves st data hinv
    unfold capture_read_stripe_run at h
    by_cases hemp : (capture_read_stripe_step st data).2.1 = []
    · rw [if_pos hemp] at h
      simp only [Option.some.injEq, Prod.mk.injEq] at h
      obtain ⟨h1, h2⟩ := h
      subst h1
      subst h2
      cases hfr : (capture_read_stripe_step st data).2.2 with
      | none =>
        have hcons := c2 hfr
        rw [hemp] at hcons
        simp only [List.length_nil, Nat.add_zero] at hcons
        refine ⟨c1, ?_, ?_⟩
        · simp [payloadSum, Option.toList]
          omega
        · simp [Option.toList]
      | some f =>
        have hge := (c3 f hfr).1
        have hcons := (c3 f hfr).2
        rw [hemp] at hcons
        simp only [List.length_nil, Nat.add_zero] at hcons
        refine ⟨c1, ?_, ?_⟩
        · simp [payloadSum, Option.toList]
          omega
        · intro g hg
          simp [Option.toList] at hg
          subst hg
          exact hge
    · rw [if_neg hemp] at h
      cases hrec : capture_read_stripe_run fuel (capture_read_stripe_step st data).1
          (capture_read_stripe_step st data).2.1 with
      | none =>
        rw [hrec] at h
        simp at h
      | some s =>
        rw [hrec] at h
        simp only [Option.map_some', Option.some.injEq] at h
        obtain ⟨ih1, ih2, ih3⟩ := ih (capture_read_stripe_step st data).1
          (capture_read_stripe_step st data).2.1 s.1 s.2 c1 (by rw [hrec])
        cases hfr : (capture_read_stripe_step st data).2.2 with
        | none =>
          have hcons := c2 hfr
          rw [hfr] at h
          simp only [Option.toList, List.nil_append, Prod.mk.injEq] at h
          obtain ⟨h1, h2⟩ := h
          subst h1
          subst h2
          exact ⟨ih1, by omega, ih3⟩
        | some f =>
          have hge := (c3 f hfr).1
          have hcons := (c3 f hfr).2
          rw [hfr] at h
          simp only [Option.toList, Prod.mk.injEq] at h
          obtain ⟨h1, h2⟩ := h
          subst h1
          subst h2
          refine ⟨ih1, ?_, ?_⟩
          · simp only [List.singleton_append, payloadSum, List.map_cons, List.sum_cons,
              List.length_cons]
            simp only [payloadSum] at ih2
            omega
          · intro g hg
            simp only [List.singleton_append, List.mem_cons] at hg
            rcases hg with hg | hg
            · subst hg
              exact hge
            · exact ih3 g hg

/-- C6 (confirmed): starting from `{max := 3, size := 0}` (established
when the capture command is sent), each IN completion copies
`min(max - size, actual_length)` bytes into the session buffer; when
`size == max == 3` the decoder sets `max` to 3 plus the little-endian
length parsed from the header bytes; when `size == max ≠ 3` it yields
exactly one frame and resets to `{max := 3, size := 0}`; residual bytes
of an oversized chunk are processed in the same invocation (the loop
repeats until the chunk is exhausted), so for any byte stream the frames
produced have total payload length equal to the bytes consumed minus 3
per frame (minus the residual bytes still buffered, which never exceed
`max`). -/
theorem aes1660_decoder_spec :
    dec_init = { buf := [], max := 3 } ∧
    (∀ (st : DecState) (data : List Nat),
      ((capture_read_stripe_step st data).2.1
          = data.drop (min (st.max - st.buf.length) data.length)) ∧
      (st.buf.length + min (st.max - st.buf.length) data.length = st.max → st.max = 3 →
        capture_read_stripe_step st data
          = ({ buf := st.buf ++ data.take (min (st.max - st.buf.length) data.length),
               max := (st.buf ++ data.take (min (st.max - st.buf.length) data.length)).getD 1 0
                 + (st.buf ++ data.take (min (st.max - st.buf.length) data.length)).getD 2 0 * 256
                 + 3 },
             data.drop (min (st.max - st.buf.length) data.length), none)) ∧
      (st.buf.length + min (st.max - st.buf.length) data.length = st.max → st.max ≠ 3 →
        capture_read_stripe_step st data
          = ({ buf := [], max := 3 },
             data.drop (min (st.max - st.buf.length) data.length),
             some (st.buf ++ data.take (min (st.max - st.buf.length) data.length)))) ∧
      (st.buf.length + min (st.max - st.buf.length) data.length ≠ st.max →
        capture_read_stripe_step st data
          = ({ st with buf := st.buf ++ data.take (min (st.max - st.buf.length) data.length) },
             data.drop (min (st.max - st.buf.length) data.length), none))) ∧
    (∀ (fuel : Nat) (st : DecState) (data : List Nat) (st2 : DecState)
        (frames : List (List Nat)),
      DecInv st →
      capture_read_stripe_run fuel st data = some (st2, frames) →
      DecInv st2 ∧
      payloadSum frames + 3 * frames.length + st2.buf.length
        = st.buf.length + data.length ∧
      ∀ f ∈ frames, 3 ≤ f.length) :=
  ⟨rfl, capture_read_stripe_step_spec, capture_read_stripe_run_spec⟩

/-- Witness for C6: the spec's reframing scenario, one strip frame with
payload `{A,B,C,D}` and one heartbeat frame with payload `{0xFF}`:
4 + 1 payload bytes + 2 headers = 11 bytes consumed. -/
theorem aes1660_decoder_spec_witness :
    payloadSum c6frames + 3 * c6frames.length + dec_init.buf.length
      = dec_init.buf.length + c6data.length :=
  (aes1660_decoder_spec.2.2 20 dec_init c6data dec_init c6frames
    (by decide) (by decide)).2.1

/-- C10 (code bug): the decoder loop does *not* consume at least one byte
per iteration on every input.  After the 3-byte header of a frame whose
declared payload length is zero, the state `{buf = header, max = 3}` is a
fixpoint of the loop body: `copied = min(3 - 3, actual_len) = 0`, the
buffer is full, `max == 3`, so `max` is recomputed to `0 + 0·256 + 3 = 3`
and the loop continues with the chunk untouched — with remaining input
the `do/while` never terminates (no fuel suffices). -/
theorem decoder_zero_length_frame_stuck :
    capture_read_stripe_step dec_init [0x40, 0, 0, 1]
      = (dec_zero_len_state, [1], none) ∧
    capture_read_stripe_step dec_zero_len_state [1]
      = (dec_zero_len_state, [1], none) ∧
    [1] ≠ ([] : List Nat) ∧
    ∀ fuel, capture_read_stripe_run fuel dec_zero_len_state [1] = none := by
  refine ⟨by decide, by decide, by decide, ?_⟩
  intro fuel
  induction fuel with
  | zero => rfl
  | succ fuel ih =>
    unfold capture_read_stripe_run
    rw [show capture_read_stripe_step dec_zero_len_state [1]
        = (dec_zero_len_state, [1], none) from by decide]
    simp [ih]

/-! ### C7 — classification of unexpected frames -/

/-- C7 counterexample: the aes1660 driver does not abort on a decoded
frame that is neither a strip nor a recognised status frame —
`process_stripe_data` on a frame with type byte `0x42` returns 0 with no
abort and no strip, refuting the claim that every such frame aborts the
capture SSM with a protocol error. -/
theorem stripe_classification_cex :
    (process_stripe_data c7frame).aborted = none ∧
    (process_stripe_data c7frame).strip = none ∧
    (process_stripe_data c7frame).ret = 0 := by decide

/-- C7 (amended): in the AES1660 driver, a decoded frame that is not a
strip frame (`data[3] ≠ 0x0d`) is silently ignored — no abort, no strip,
return 0; in the AES2550 driver, a message whose magic is neither `0xe0`
(strip) nor `0xdb` (heartbeat) makes `process_strip_data` return
`-EINVAL` (= -22, not `-EPROTO`), and `capture_read_data_cb` passes that
negative value to `fpi_ssm_mark_aborted`, completing the capture SSM with
`error = -EINVAL`. -/
theorem frame_classification_spec :
    (∀ data : List Nat, data.getD 3 0 ≠ 0x0d →
      process_stripe_data data
        = { ret := 0, strip := none, next_state_called := false,
            last_found := false, aborted := none }) ∧
    (∀ (data : List Nat) (buf_size : Nat),
      data.getD 0 0 ≠ 0xe0 → data.getD 0 0 ≠ 0xdb →
      (process_strip_data data buf_size).ret = -22 ∧
      (process_strip_data data buf_size).ret < 0) ∧
    (∀ m : Fssm, m.has_child = false → m.completed = false →
      capture_read_data_react m (-22) = .ok
        ({ m with error := -22, idle := false, completed := true },
          if m.has_callback then [SsmAction.invokeCallback] else [])) := by
  refine ⟨?_, ?_, ?_⟩
  · intro data h
    unfold process_stripe_data
    rw [if_neg h]
  · intro data bs h1 h2
    unfold process_strip_data
    rw [if_neg h1, if_neg h2]
    exact ⟨rfl, by decide⟩
  · intro m h1 h2
    unfold capture_read_data_react fpi_ssm_mark_aborted fpi_ssm_mark_completed
    rw [if_pos (by decide)]
    simp [h1, h2]

/-- Witness for C7 at the concrete unrecognised aes1660 frame. -/
theorem frame_classification_spec_witness :
    process_stripe_data c7frame
      = { ret := 0, strip := none, next_state_called := false,
          last_found := false, aborted := none } :=
  frame_classification_spec.1 c7frame (by decide)

/-! ### C8 / C9 — strip-list accounting -/

/-- C8 (code bug): the strip list and its `strips_len` counter do *not*
agree at every suspension point.  After `assemble_and_submit_image`
(aes2550.c) frees the strip list it leaves `strips_len` untouched: from a
one-strip session the list is empty but the counter still reads 1.  (The
aes1660 submit path and `complete_deactivation` do restore agreement.) -/
theorem strips_len_stale_after_submit :
    strips_agree c8session ∧
    (assemble_and_submit_image_session c8session).1.strips = [] ∧
    (assemble_and_submit_image_session c8session).1.strips_len = 1 ∧
    ¬ strips_agree (assemble_and_submit_image_session c8session).1 ∧
    strips_agree (capture_set_idle_session c8session) ∧
    strips_agree (complete_deactivation c8session) := by decide

set_option maxRecDepth 10000 in
/-- C9 (code bug): nothing enforces the `MAX_FRAMES` cap.  The
strip-accumulation step of `process_strip_data` / `process_stripe_data`
unconditionally prepends and increments, so 151 consecutive strip
messages drive `strips_len` to 151 > `MAX_FRAMES` = 150; the constant is
defined in aes2550.c but never consulted. -/
theorem no_frame_cap_enforced :
    (∀ (s : StripSession) (strip : List Nat),
      (session_add_strip s strip).strips = strip :: s.strips ∧
      (session_add_strip s strip).strips_len = s.strips_len + 1) ∧
    ((fun s => session_add_strip s stripZ)^[151]
        { strips := [], strips_len := 0, deactivating := false }).strips_len = 151 ∧
    151 > MAX_FRAMES := by
  refine ⟨fun s strip => ⟨rfl, rfl⟩, by decide, by decide⟩

end LibFprint
